import Mathlib

/-!
# benchmarker http-api: transactional request pipeline

A shallow embedding of `http-api/main.go`: the request-error values, the path
id parser, the authorization check, the transaction coordinator, the health
probe and the six registered handlers, followed by theorems about them.

Conventions of the embedding.

* A Go `string` is read as its sequence of characters (`String.data`).  The
  characters the code inspects (`/`, the signs and the decimal digits) are
  ASCII, and no byte of a multi-byte UTF-8 sequence is ASCII, so splitting and
  digit recognition agree with Go's byte-wise reading.
* Go `int`, `int32` and `int64` values are `Int`; the one narrowing conversion
  (`int32(id64)`) wraps explicitly.  `uint64` arithmetic is `Nat` modulo `2^64`.
* A `*requestError` is an `Option requestError`, `nil` being `none`.
* Functions of the repository that live outside `main.go` (the store
  operations, the equality helpers, the JSON codec) are fields of an
  environment record, so every theorem quantifies over all their behaviours.
-/

namespace Benchmarker

/-! ## Request errors -/

/-- The Go struct `requestError`. -/
structure requestError where
  Explanation : String
  httpStatus : Int
  deriving DecidableEq, Repr

def StatusOK : Int := 200
def StatusCreated : Int := 201
def StatusBadRequest : Int := 400
def StatusUnauthorized : Int := 401
def StatusMethodNotAllowed : Int := 405
def StatusInternalServerError : Int := 500
def StatusServiceUnavailable : Int := 503

def badRequestError (explanation : String) : requestError :=
  { Explanation := explanation, httpStatus := StatusBadRequest }

def internalServerError (explanation : String) : requestError :=
  { Explanation := explanation, httpStatus := StatusInternalServerError }

/-! ## `strings.Split` and `strconv.ParseInt` (Go standard library) -/

/-- The Go call `strings.Split(s, sep)` for a one-character separator: the
pieces between successive separators, one more than there are separators. -/
def splitChars (sep : Char) : List Char → List (List Char)
  | [] => [[]]
  | c :: cs =>
    if c = sep then [] :: splitChars sep cs
    else
      match splitChars sep cs with
      | [] => [[c]]
      | piece :: rest => (c :: piece) :: rest

/-- The Go call `strings.Split(path, "/")`. -/
def stringsSplit (s : String) (sep : Char) : List (List Char) :=
  splitChars sep s.data

/-- The two error kinds of `strconv`: `ErrSyntax` and `ErrRange`. -/
inductive NumError where
  | ErrSyntax
  | ErrRange
  deriving DecidableEq, Repr

def maxUint64 : Nat := 2 ^ 64 - 1

/-- Go's `lower(c)`, which is `c | ('x' - 'X')`. -/
def lower (c : Nat) : Nat := c ||| 32

/-- The digit loop of `strconv.ParseUint` for an explicit base between 2 and
36 (no underscores, no base prefix): `n` is the `uint64` accumulator. -/
def parseUintLoop (base cutoff maxVal : Nat) : List Char → Nat → Nat × Option NumError
  | [], n => (n, none)
  | c :: cs, n =>
    let d? : Option Nat :=
      if 48 ≤ c.toNat ∧ c.toNat ≤ 57 then some (c.toNat - 48)
      else if 97 ≤ lower c.toNat ∧ lower c.toNat ≤ 122 then some (lower c.toNat - 97 + 10)
      else none
    match d? with
    | none => (0, some NumError.ErrSyntax)
    | some d =>
      if d ≥ base then (0, some NumError.ErrSyntax)
      else if n ≥ cutoff then (maxVal, some NumError.ErrRange)
      else
        let n10 := (n * base) % 2 ^ 64
        let n1 := (n10 + d) % 2 ^ 64
        if n1 < n10 ∨ n1 > maxVal then (maxVal, some NumError.ErrRange)
        else parseUintLoop base cutoff maxVal cs n1

/-- The Go function `strconv.ParseUint(s, base, bitSize)` for
`2 ≤ base ≤ 36` and `0 < bitSize ≤ 64`. -/
def ParseUint (s : List Char) (base bitSize : Nat) : Nat × Option NumError :=
  if s = [] then (0, some NumError.ErrSyntax)
  else
    let cutoff := maxUint64 / base + 1
    let maxVal := 2 ^ bitSize - 1
    parseUintLoop base cutoff maxVal s 0

/-- The Go function `strconv.ParseInt(s, base, bitSize)` for
`2 ≤ base ≤ 36` and `0 < bitSize ≤ 64`. -/
def ParseInt (s : List Char) (base bitSize : Nat) : Int × Option NumError :=
  match s with
  | [] => (0, some NumError.ErrSyntax)
  | c0 :: tl =>
    let neg := decide (c0 = '-')
    let body := if c0 = '+' then tl else if c0 = '-' then tl else s
    let (un, err) := ParseUint body base bitSize
    if err = some NumError.ErrSyntax then (0, err)
    else
      let cutoff : Nat := 2 ^ (bitSize - 1)
      if !neg ∧ un ≥ cutoff then ((cutoff : Int) - 1, some NumError.ErrRange)
      else if neg ∧ un > cutoff then (-(cutoff : Int), some NumError.ErrRange)
      else if neg then (-(un : Int), none)
      else ((un : Int), none)

/-- The Go conversion `int32(x)` of an `int64`: two's-complement wrap. -/
def toInt32 (x : Int) : Int := (x + 2 ^ 31) % 2 ^ 32 - 2 ^ 31

/-! ## `parseIDFromPath` -/

/-- The function `parseIDFromPath`.  `none` is the run-time panic of an
out-of-range slice index; otherwise the pair `(id, err)` the code returns. -/
def parseIDFromPath (path : String) (numComponents index : Int) :
    Option (Int × Option requestError) :=
  let pathComponents := stringsSplit path '/'
  if (pathComponents.length : Int) ≠ numComponents then
    some (-1, some (badRequestError "Incorrect path"))
  else if index < 0 then none
  else
    match pathComponents[index.toNat]? with
    | none => none
    | some component =>
      let (id64, err) := ParseInt component 10 32
      if err ≠ none then
        some (-1, some (badRequestError "Could not parse run set id"))
      else if id64 < 0 then
        some (-1, some (badRequestError "Run set id must be a positive number"))
      else some (toInt32 id64, none)

/-! ### The reading of "`/`-separated components" -/

/-- The pieces joined back into one text with the separator between
neighbours. -/
def joinWith (sep : Char) : List (List Char) → List Char
  | [] => []
  | [piece] => piece
  | piece :: next :: rest => piece ++ sep :: joinWith sep (next :: rest)

/-- The separated components of a text, stated without the splitting code:
at least one piece, no piece contains the separator, and the pieces joined by
the separator are the text. -/
def IsSeparated (sep : Char) (s : List Char) (comps : List (List Char)) : Prop :=
  comps ≠ [] ∧ (∀ piece ∈ comps, sep ∉ piece) ∧ joinWith sep comps = s

instance (sep : Char) (s : List Char) (comps : List (List Char)) :
    Decidable (IsSeparated sep s comps) := by
  unfold IsSeparated; infer_instance

/-! ### The reading of "base-10 signed integer representable in 32 bits" -/

/-- A decimal digit, `0` to `9`. -/
def isDecimalDigit (c : Char) : Bool :=
  decide ('0'.toNat ≤ c.toNat ∧ c.toNat ≤ '9'.toNat)

/-- The number a string of decimal digits denotes, most significant first. -/
def digitsValue (ds : List Char) : Nat :=
  ds.foldl (fun acc c => 10 * acc + (c.toNat - '0'.toNat)) 0

/-- The number denoted by one or more decimal digits; `none` for anything else. -/
def unsignedValue (ds : List Char) : Option Nat :=
  if ds ≠ [] ∧ ds.all isDecimalDigit = true then some (digitsValue ds) else none

/-- The integer denoted by a base-10 numeral: an optional sign `+` or `-`
followed by one or more decimal digits; `none` when the text is not one.
The value is unbounded. -/
def base10Value (s : List Char) : Option Int :=
  match s with
  | [] => none
  | c :: tl =>
    if c = '-' then (unsignedValue tl).map (fun (n : Nat) => -(n : Int))
    else if c = '+' then (unsignedValue tl).map (fun (n : Nat) => (n : Int))
    else (unsignedValue s).map (fun (n : Nat) => (n : Int))

/-- An integer that a signed 32-bit word can hold. -/
def representableInt32 (z : Int) : Prop := -2 ^ 31 ≤ z ∧ z ≤ 2 ^ 31 - 1

instance (z : Int) : Decidable (representableInt32 z) := by
  unfold representableInt32; infer_instance

/-! ## Data model -/

/-- Modelled from the spec: the struct `Machine` is declared outside `main.go`
("natural key = name; descriptive attributes").  `main.go` reads the field
`Name` and compares two machines with Go's `!=`, which compares every field. -/
structure Machine where
  Name : String
  Architecture : String
  deriving DecidableEq, Repr

/-- Modelled from the spec: the struct `Product` is declared outside `main.go`
("natural key = name + version reference; resolves to an immutable content
identifier"). -/
structure Product where
  Name : String
  Commit : String
  deriving DecidableEq, Repr

/-- Modelled from the spec: the struct `Config` is declared outside `main.go`
("natural key = name; parameter set").  `main.go` reads the field `Name`. -/
structure Config where
  Name : String
  Parameters : List String
  deriving DecidableEq, Repr

/-- Modelled from the spec: the struct `PullRequest` is declared outside
`main.go`; `main.go` reads `BaselineRunSetID` and `URL`. -/
structure PullRequest where
  BaselineRunSetID : Int
  URL : String
  deriving DecidableEq, Repr

/-- Modelled from the spec: one measurement of a run, "(benchmark, metric,
value)"; the value is never read by `main.go` and is left out. -/
structure Result where
  Benchmark : String
  Metric : String
  deriving DecidableEq, Repr

/-- Modelled from the spec: the struct `Run` is declared outside `main.go`;
`main.go` reads the field `Results`. -/
structure Run where
  Results : List Result
  deriving DecidableEq, Repr

/-- Modelled from the spec: the struct `RunSet` is declared outside `main.go`.
The fields are the ones `main.go` reads; the pointer `PullRequest` is an
`Option`. -/
structure RunSet where
  MainProduct : Product
  SecondaryProducts : List Product
  Machine : Machine
  Config : Config
  PullRequest : Option PullRequest
  StartedAt : String
  FinishedAt : String
  BuildURL : String
  LogURLs : List (String × String)
  TimedOutBenchmarks : List String
  CrashedBenchmarks : List String
  Runs : List Run
  deriving DecidableEq, Repr

/-- Modelled from the spec: the struct `RunSetSummary` is declared outside
`main.go` ("lightweight RunSet summaries (id, timestamps, ...)"). -/
structure RunSetSummary where
  ID : Int
  StartedAt : String
  deriving DecidableEq, Repr

/-- The Go struct `runsetPostResponse`. -/
structure runsetPostResponse where
  RunSetID : Int
  RunIDs : List Int
  PullRequestID : Option Int
  deriving DecidableEq, Repr

/-- The Go struct `healthGetResponse`. -/
structure healthGetResponse where
  DatabaseResponds : Bool
  deriving DecidableEq, Repr

/-! ## Requests and the response writer -/

/-- The part of `url.URL` the code reads: `Path`, and `Query()` as a
`url.Values` (each key maps to its list of values, empty when absent). -/
structure URL where
  Path : String
  Query : String → List String

/-- The part of `http.Request` the code reads.  `Header` maps a canonical
header name to its list of values; `Body` is the outcome of
`ioutil.ReadAll(r.Body)`, `none` being a read error. -/
structure Request where
  Method : String
  URL : URL
  Header : String → List String
  Body : Option String

/-- The Go methods `url.Values.Get` and `http.Header.Get`: the first value of
the key, or the empty string when there is none. -/
def valuesGet (v : String → List String) (key : String) : String :=
  match v key with
  | [] => ""
  | x :: _ => x

/-- One call made on the `http.ResponseWriter`; `Error` is `http.Error`. -/
inductive WriterCall where
  | WriteHeader (status : Int)
  | HeaderSet (key value : String)
  | Write (bytes : String)
  | Error (error : String) (code : Int)
  deriving DecidableEq, Repr

/-- The response writer, as the list of calls made on it so far. -/
abbrev ResponseWriter := List WriterCall

/-- The status line of the response: the code of the first `WriteHeader` or
`http.Error`; a first `Write` without a header call sends 200. -/
def responseStatus : ResponseWriter → Option Int
  | [] => none
  | WriterCall.WriteHeader s :: _ => some s
  | WriterCall.Error _ c :: _ => some c
  | WriterCall.Write _ :: _ => some StatusOK
  | WriterCall.HeaderSet _ _ :: rest => responseStatus rest

/-- The body bytes written to the response. -/
def responseBody : ResponseWriter → List String
  | [] => []
  | WriterCall.Write b :: rest => b :: responseBody rest
  | WriterCall.Error e _ :: rest => e :: responseBody rest
  | _ :: rest => responseBody rest

/-! ## The store and the environment -/

/-- One store operation issued on a transaction by a handler. -/
inductive StoreCall where
  | ensureMachineExists
  | ensureProductExists
  | ensureConfigExists
  | ensureBenchmarksAndMetricsExist
  | insertPullRequest
  | insertRunSet
  | insertRuns (runSetID : Int)
  | fetchRunSet (runSetID : Int) (withRuns : Bool)
  | deleteRunSet (runSetID : Int)
  | updateRunSet (runSetID : Int)
  | insertResults (runID : Int)
  | fetchRunSetSummaries
  | fetchBenchmarks
  deriving DecidableEq, Repr

/-- The transaction `*pgx.Tx` handed to a handler: the store contents it sees
and the operations issued on it so far. -/
structure Tx (σ : Type) where
  state : σ
  calls : List StoreCall

/-- A transaction after one more operation. -/
def Tx.issue {σ : Type} (database : Tx σ) (c : StoreCall) (s : σ) : Tx σ :=
  { state := s, calls := database.calls ++ [c] }

/-- The functions `main.go` calls that are defined elsewhere: the store
operations of the repository (each maps the store contents to its Go results
and the new contents), its equality and merge helpers, and `encoding/json`
(`none` is a non-nil `error`).  `insertPullRequest` and `insertRunSet` are the
two `database.QueryRow(...).Scan(...)` calls of `runSetPutHandler`, `none`
being a scan error; `insertRunSet` receives `params` for the columns read from
it, then `mainCommit`, `secondaryCommits` and `pullRequestID`.  The two
`ensureBenchmarksAndMetricsExist` fields are the methods of that name on
`RunSet` and on `Run`; `productIsSameAs` and `configIsSameAs` are the methods
`isSameAs` of `Product` and of `Config`. -/
structure Env (σ : Type) where
  ensureMachineExists : σ → Machine → Option requestError × σ
  ensureProductExists : σ → Product → (String × Option requestError) × σ
  ensureConfigExists : σ → Config → Option requestError × σ
  runSetEnsureBenchmarksAndMetricsExist : σ → RunSet → Option requestError × σ
  runEnsureBenchmarksAndMetricsExist : σ → Run → Option requestError × σ
  insertPullRequest : σ → Int → String → Option Int × σ
  insertRunSet : σ → RunSet → String → List String → Option Int → Option Int × σ
  insertRuns : σ → Int → List Run → (List Int × Option requestError) × σ
  fetchRunSet : σ → Int → Bool → (RunSet × Option requestError) × σ
  deleteRunSet : σ → Int → (Int × Int × Option requestError) × σ
  updateRunSet : σ → Int → RunSet → Option requestError × σ
  insertResults : σ → Int → List Result → Bool → Option requestError × σ
  fetchRunSetSummaries : σ → String → String → (Option (List RunSetSummary) × Option requestError) × σ
  fetchBenchmarks : σ → Option requestError × σ
  productIsSameAs : Product → Product → Bool
  productSetsEqual : List Product → List Product → Bool
  configIsSameAs : Config → Config → Bool
  amendWithDataFrom : RunSet → RunSet → RunSet
  unmarshalRunSet : String → Option RunSet
  unmarshalRun : String → Option Run
  marshalRequestError : requestError → Option String
  marshalRunsetPostResponse : runsetPostResponse → Option String
  marshalRunSet : RunSet → Option String
  marshalStatus : List (String × Int) → Option String
  marshalSummaries : List RunSetSummary → Option String

/-- The global `connPool`: `Begin` is the outcome of `connPool.Begin()`, the
store contents the new transaction sees, or `none` for a non-nil error. -/
structure ConnPool (σ : Type) where
  Begin : Option σ

/-- The method `requestError.httpError`. -/
def httpError {σ : Type} (env : Env σ) (rerr : requestError) (w : ResponseWriter) :
    ResponseWriter :=
  let errorString :=
    match env.marshalRequestError rerr with
    | some bytes => bytes
    | none => "\x7b\"Explanation\": \"unknown\"\x7d"
  w ++ [WriterCall.Error errorString rerr.httpStatus]

/-! ## Authorization and the transaction coordinator -/

/-- The function `isAuthorized`. -/
def isAuthorized (r : Request) (authToken : String) : Bool :=
  if valuesGet r.URL.Query "authToken" = authToken then true
  else if valuesGet r.Header "Authorization" = "token " ++ authToken then true
  else false

/-- What a handler hands back: the pair `(commit, reqErr)` it returns, and the
transaction and response writer as it leaves them. -/
structure HandlerResult (σ : Type) where
  commit : Bool
  reqErr : Option requestError
  database : Tx σ
  w : ResponseWriter

/-- The Go type `handlerFunc`; `none` is a run-time panic inside the handler. -/
abbrev handlerFunc (σ : Type) :=
  Tx σ → ResponseWriter → Request → String → Option (HandlerResult σ)

/-- One step of the coordinator: a call of `connPool.Begin()` (whatever its
outcome), the call of the handler, `transaction.Commit()` or
`transaction.Rollback()`. -/
inductive Step where
  | Begin
  | Handler
  | Commit
  | Rollback
  deriving DecidableEq, Repr

/-- The state after a request was served: the response writer, the steps
taken on the pool and the transaction, the transaction as it was left (when
one was begun) and the error reported through `httpError`, if any. -/
structure Served (σ : Type) where
  w : ResponseWriter
  steps : List Step
  database : Option (Tx σ)
  reqErr : Option requestError

/-- The tail of the closure of `newTransactionHandler`: report `reqErr`. -/
def finish {σ : Type} (env : Env σ) (w : ResponseWriter) (steps : List Step)
    (database : Option (Tx σ)) (reqErr : Option requestError) : Served σ :=
  match reqErr with
  | some e => { w := httpError env e w, steps := steps, database := database, reqErr := some e }
  | none => { w := w, steps := steps, database := database, reqErr := none }

/-- The closure returned by `newTransactionHandler(authToken, handlers)`,
applied to `(w, r)`.  `none` is a panic inside the handler. -/
def newTransactionHandler {σ : Type} (env : Env σ) (connPool : ConnPool σ)
    (authToken : String) (handlers : String → Option (handlerFunc σ))
    (w : ResponseWriter) (r : Request) : Option (Served σ) :=
  match handlers r.Method with
  | none =>
    some (finish env w [] none
      (some { Explanation := "Method not allowed", httpStatus := StatusMethodNotAllowed }))
  | some handler =>
    if !isAuthorized r authToken then
      some (finish env w [] none
        (some { Explanation := "Auth token invalid", httpStatus := StatusUnauthorized }))
    else
      match r.Body with
      | none =>
        some (finish env w [] none (some (internalServerError "Could not read request body: ")))
      | some body =>
        match connPool.Begin with
        | none =>
          some (finish env w [Step.Begin] none
            (some (internalServerError "Could not begin transaction")))
        | some s =>
          match handler { state := s, calls := [] } w r body with
          | none => none
          | some res =>
            if res.commit then
              some (finish env res.w [Step.Begin, Step.Handler, Step.Commit]
                (some res.database) res.reqErr)
            else
              some (finish env res.w [Step.Begin, Step.Handler, Step.Rollback]
                (some res.database) res.reqErr)

/-! ## The health probe -/

/-- The call `json.Marshal(response)` on a `healthGetResponse`: a struct of one
boolean always encodes. -/
def marshalHealth (response : healthGetResponse) : Option String :=
  if response.DatabaseResponds then some "\x7b\"DatabaseResponds\":true\x7d"
  else some "\x7b\"DatabaseResponds\":false\x7d"

/-- The function `healthHandler`. -/
def healthHandler {σ : Type} (env : Env σ) (connPool : ConnPool σ)
    (w : ResponseWriter) (r : Request) : Served σ :=
  if r.Method ≠ "GET" then
    { w := httpError env
        { Explanation := "Method not allowed", httpStatus := StatusMethodNotAllowed } w,
      steps := [], database := none,
      reqErr := some { Explanation := "Method not allowed", httpStatus := StatusMethodNotAllowed } }
  else
    let (response, steps, database) : healthGetResponse × List Step × Option (Tx σ) :=
      match connPool.Begin with
      | none => ({ DatabaseResponds := false }, [Step.Begin], none)
      | some s =>
        let (reqErr, s1) := env.fetchBenchmarks s
        ({ DatabaseResponds := decide (reqErr = none) }, [Step.Begin, Step.Rollback],
          some (Tx.issue { state := s, calls := [] } StoreCall.fetchBenchmarks s1))
    match marshalHealth response with
    | none =>
      { w := httpError env (internalServerError "Could not produce JSON for response") w,
        steps := steps, database := database,
        reqErr := some (internalServerError "Could not produce JSON for response") }
    | some respBytes =>
      let w1 :=
        if response.DatabaseResponds then w ++ [WriterCall.WriteHeader StatusOK]
        else w ++ [WriterCall.WriteHeader StatusServiceUnavailable]
      { w := w1 ++ [WriterCall.HeaderSet "Content-Type" "application/json; charset=UTF-8",
                    WriterCall.Write respBytes],
        steps := steps, database := database, reqErr := none }

/-! ## The registered handlers

Calls of `fmt.Printf` (server-side logging) are not part of the embedding. -/

/-- The three writer calls that end a successful handler. -/
def writeJSON (w : ResponseWriter) (status : Int) (respBytes : String) : ResponseWriter :=
  w ++ [WriterCall.WriteHeader status,
        WriterCall.HeaderSet "Content-Type" "application/json; charset=UTF-8",
        WriterCall.Write respBytes]

/-- The loop of `runSetPutHandler` over `params.SecondaryProducts`: it stops at
the first error, otherwise appends the commit to `secondaryCommits`. -/
def ensureSecondaryProducts {σ : Type} (env : Env σ) :
    Tx σ → List Product → List String → (List String × Option requestError) × Tx σ
  | database, [], secondaryCommits => ((secondaryCommits, none), database)
  | database, p :: ps, secondaryCommits =>
    let ((commit, reqErr), s) := env.ensureProductExists database.state p
    let database := database.issue StoreCall.ensureProductExists s
    match reqErr with
    | some e => ((secondaryCommits, some e), database)
    | none => ensureSecondaryProducts env database ps (secondaryCommits ++ [commit])

/-- The function `runSetPutHandler`. -/
def runSetPutHandler {σ : Type} (env : Env σ) : handlerFunc σ := fun database w _r body =>
  match env.unmarshalRunSet body with
  | none => some ⟨false, some (badRequestError "Could not parse request body"), database, w⟩
  | some params =>
  let (reqErr, s) := env.ensureMachineExists database.state params.Machine
  let database := database.issue StoreCall.ensureMachineExists s
  match reqErr with
  | some e => some ⟨false, some e, database, w⟩
  | none =>
  let ((mainCommit, reqErr), s) := env.ensureProductExists database.state params.MainProduct
  let database := database.issue StoreCall.ensureProductExists s
  match reqErr with
  | some e => some ⟨false, some e, database, w⟩
  | none =>
  let ((secondaryCommits, reqErr), database) :=
    ensureSecondaryProducts env database params.SecondaryProducts []
  match reqErr with
  | some e => some ⟨false, some e, database, w⟩
  | none =>
  let (reqErr, s) := env.runSetEnsureBenchmarksAndMetricsExist database.state params
  let database := database.issue StoreCall.ensureBenchmarksAndMetricsExist s
  match reqErr with
  | some e => some ⟨false, some e, database, w⟩
  | none =>
  let (reqErr, s) := env.ensureConfigExists database.state params.Config
  let database := database.issue StoreCall.ensureConfigExists s
  match reqErr with
  | some e => some ⟨false, some e, database, w⟩
  | none =>
  let (inserted, database) : Option (Option Int) × Tx σ :=
    match params.PullRequest with
    | none => (some none, database)
    | some pr =>
      let (prID, s) := env.insertPullRequest database.state pr.BaselineRunSetID pr.URL
      let database := database.issue StoreCall.insertPullRequest s
      match prID with
      | none => (none, database)
      | some prID => (some (some prID), database)
  match inserted with
  | none => some ⟨false, some (internalServerError "Could not insert pull request"), database, w⟩
  | some pullRequestID =>
  let (scanned, s) :=
    env.insertRunSet database.state params mainCommit secondaryCommits pullRequestID
  let database := database.issue StoreCall.insertRunSet s
  match scanned with
  | none => some ⟨false, some (internalServerError "Could not insert run set"), database, w⟩
  | some runSetID =>
  let ((runIDs, reqErr), s) := env.insertRuns database.state runSetID params.Runs
  let database := database.issue (StoreCall.insertRuns runSetID) s
  match reqErr with
  | some e => some ⟨false, some e, database, w⟩
  | none =>
  let resp : runsetPostResponse :=
    { RunSetID := runSetID, RunIDs := runIDs, PullRequestID := pullRequestID }
  match env.marshalRunsetPostResponse resp with
  | none =>
    some ⟨false, some (internalServerError "Could not produce JSON for response"), database, w⟩
  | some respBytes => some ⟨true, none, database, writeJSON w StatusCreated respBytes⟩

/-- The function `specificRunSetGetHandler`. -/
def specificRunSetGetHandler {σ : Type} (env : Env σ) : handlerFunc σ :=
  fun database w r _body =>
  match parseIDFromPath r.URL.Path 4 3 with
  | none => none
  | some (_, some e) => some ⟨false, some e, database, w⟩
  | some (runSetID, none) =>
  let ((rs, reqErr), s) := env.fetchRunSet database.state runSetID true
  let database := database.issue (StoreCall.fetchRunSet runSetID true) s
  match reqErr with
  | some e => some ⟨false, some e, database, w⟩
  | none =>
  match env.marshalRunSet rs with
  | none =>
    some ⟨false, some (internalServerError "Could not product JSON for response"), database, w⟩
  | some respBytes => some ⟨false, none, database, writeJSON w StatusOK respBytes⟩

/-- The function `specificRunSetDeleteHandler`. -/
def specificRunSetDeleteHandler {σ : Type} (env : Env σ) : handlerFunc σ :=
  fun database w r _body =>
  match parseIDFromPath r.URL.Path 4 3 with
  | none => none
  | some (_, some e) => some ⟨false, some e, database, w⟩
  | some (runSetID, none) =>
  let ((numRuns, numMetrics, err), s) := env.deleteRunSet database.state runSetID
  let database := database.issue (StoreCall.deleteRunSet runSetID) s
  match err with
  | some e => some ⟨false, some e, database, w⟩
  | none =>
  let status : List (String × Int) :=
    [("DeletedRunMetrics", numMetrics), ("DeletedRuns", numRuns)]
  match env.marshalStatus status with
  | none =>
    some ⟨false, some (internalServerError "Could not product JSON for response"), database, w⟩
  | some respBytes => some ⟨true, none, database, writeJSON w StatusOK respBytes⟩

/-- The function `specificRunSetPostHandler`. -/
def specificRunSetPostHandler {σ : Type} (env : Env σ) : handlerFunc σ :=
  fun database w r body =>
  match parseIDFromPath r.URL.Path 4 3 with
  | none => none
  | some (_, some e) => some ⟨false, some e, database, w⟩
  | some (runSetID, none) =>
  match env.unmarshalRunSet body with
  | none => some ⟨false, some (badRequestError "Could not parse request body"), database, w⟩
  | some params =>
  if params.PullRequest ≠ none then
    some ⟨false, some (badRequestError "PullRequest is not allowed for amending"), database, w⟩
  else
  let (reqErr, s) := env.runSetEnsureBenchmarksAndMetricsExist database.state params
  let database := database.issue StoreCall.ensureBenchmarksAndMetricsExist s
  match reqErr with
  | some e => some ⟨false, some e, database, w⟩
  | none =>
  let ((rs, reqErr), s) := env.fetchRunSet database.state runSetID false
  let database := database.issue (StoreCall.fetchRunSet runSetID false) s
  match reqErr with
  | some e => some ⟨false, some e, database, w⟩
  | none =>
  if !env.productIsSameAs params.MainProduct rs.MainProduct ||
      !env.productSetsEqual params.SecondaryProducts rs.SecondaryProducts ||
      decide (params.Machine ≠ rs.Machine) ||
      !env.configIsSameAs params.Config rs.Config then
    some ⟨false, some (badRequestError "Parameters do not match database"), database, w⟩
  else
  let rs := env.amendWithDataFrom rs params
  let ((runIDs, reqErr), s) := env.insertRuns database.state runSetID params.Runs
  let database := database.issue (StoreCall.insertRuns runSetID) s
  match reqErr with
  | some e => some ⟨false, some e, database, w⟩
  | none =>
  let (reqErr, s) := env.updateRunSet database.state runSetID rs
  let database := database.issue (StoreCall.updateRunSet runSetID) s
  match reqErr with
  | some e => some ⟨false, some e, database, w⟩
  | none =>
  let resp : runsetPostResponse := { RunSetID := runSetID, RunIDs := runIDs, PullRequestID := none }
  match env.marshalRunsetPostResponse resp with
  | none =>
    some ⟨false, some (internalServerError "Could not produce JSON for response"), database, w⟩
  | some respBytes => some ⟨true, none, database, writeJSON w StatusCreated respBytes⟩

/-- The function `specificRunPostHandler`. -/
def specificRunPostHandler {σ : Type} (env : Env σ) : handlerFunc σ :=
  fun database w r body =>
  match parseIDFromPath r.URL.Path 4 3 with
  | none => none
  | some (_, some e) => some ⟨false, some e, database, w⟩
  | some (runID, none) =>
  match env.unmarshalRun body with
  | none => some ⟨false, some (badRequestError "Could not parse request body"), database, w⟩
  | some params =>
  let (reqErr, s) := env.runEnsureBenchmarksAndMetricsExist database.state params
  let database := database.issue StoreCall.ensureBenchmarksAndMetricsExist s
  match reqErr with
  | some e => some ⟨false, some e, database, w⟩
  | none =>
  let (reqErr, s) := env.insertResults database.state runID params.Results true
  let database := database.issue (StoreCall.insertResults runID) s
  match reqErr with
  | some e => some ⟨false, some e, database, w⟩
  | none =>
    some ⟨true, none, database,
      w ++ [WriterCall.WriteHeader StatusCreated,
            WriterCall.HeaderSet "Content-Type" "application/json; charset=UTF-8",
            WriterCall.Write "\x7b\x7d"]⟩

/-- The function `runSetsGetHandler`. -/
def runSetsGetHandler {σ : Type} (env : Env σ) : handlerFunc σ :=
  fun database w r _body =>
  let machine := valuesGet r.URL.Query "machine"
  let config := valuesGet r.URL.Query "config"
  if machine = "" ∨ config = "" then
    some ⟨false, some (badRequestError "Missing machine or config"), database, w⟩
  else
  let ((summaries, reqErr), s) := env.fetchRunSetSummaries database.state machine config
  let database := database.issue StoreCall.fetchRunSetSummaries s
  match reqErr with
  | some e => some ⟨false, some e, database, w⟩
  | none =>
  let summaries : List RunSetSummary :=
    match summaries with
    | none => []
    | some l => l
  match env.marshalSummaries summaries with
  | none =>
    some ⟨false, some (internalServerError "Could not produce JSON for response"), database, w⟩
  | some respBytes => some ⟨false, none, database, writeJSON w StatusOK respBytes⟩

/-! ## The routes registered by `main` -/

/-- The handler map of `/api/runset`. -/
def runSetRoute {σ : Type} (env : Env σ) (method : String) : Option (handlerFunc σ) :=
  if method = "PUT" then some (runSetPutHandler env) else none

/-- The handler map of `/api/runset/`. -/
def specificRunSetRoute {σ : Type} (env : Env σ) (method : String) : Option (handlerFunc σ) :=
  if method = "GET" then some (specificRunSetGetHandler env)
  else if method = "POST" then some (specificRunSetPostHandler env)
  else if method = "DELETE" then some (specificRunSetDeleteHandler env)
  else none

/-- The handler map of `/api/run/`. -/
def specificRunRoute {σ : Type} (env : Env σ) (method : String) : Option (handlerFunc σ) :=
  if method = "POST" then some (specificRunPostHandler env) else none

/-- The handler map of `/api/runsets`. -/
def runSetsRoute {σ : Type} (env : Env σ) (method : String) : Option (handlerFunc σ) :=
  if method = "GET" then some (runSetsGetHandler env) else none

/-! ## An in-memory store for the worked examples -/

/-- Modelled from the spec: the store behind the operations that `main.go`
calls but does not define, reduced to the benchmark table and the run sets
by id (§3, §4.3 to §4.6); the other entity tables are not materialised. -/
structure MemStore where
  benchmarks : List String
  runSets : List (Int × RunSet)
  nextID : Int
  deriving DecidableEq, Repr

/-- The benchmark names referenced by the results of some runs. -/
def benchmarkNames (runs : List Run) : List String :=
  runs.foldl (fun acc run => acc ++ run.Results.map (fun res => res.Benchmark)) []

/-- Modelled from the spec: `ensureBenchmarksAndMetricsExist` (§4.3: "attempt
to read the row by natural key; if present, return its identity; if absent,
insert it"), for benchmark names. -/
def memEnsureBenchmarks (s : MemStore) (names : List String) : MemStore :=
  names.foldl
    (fun st n => if n ∈ st.benchmarks then st else { st with benchmarks := st.benchmarks ++ [n] }) s

def emptyRunSet : RunSet :=
  { MainProduct := ⟨"", ""⟩, SecondaryProducts := [], Machine := ⟨"", ""⟩, Config := ⟨"", []⟩,
    PullRequest := none, StartedAt := "", FinishedAt := "", BuildURL := "", LogURLs := [],
    TimedOutBenchmarks := [], CrashedBenchmarks := [], Runs := [] }

/-- Modelled from the spec: the amendment merge of §4.5 (sets unioned, the
other mutable fields replaced). -/
def memAmend (rs params : RunSet) : RunSet :=
  { rs with
    TimedOutBenchmarks := rs.TimedOutBenchmarks ++
      params.TimedOutBenchmarks.filter (fun b => !rs.TimedOutBenchmarks.contains b),
    CrashedBenchmarks := rs.CrashedBenchmarks ++
      params.CrashedBenchmarks.filter (fun b => !rs.CrashedBenchmarks.contains b),
    FinishedAt := params.FinishedAt, BuildURL := params.BuildURL, LogURLs := params.LogURLs }

/-- Modelled from the spec: the operations of the repository outside
`main.go`, over `MemStore`.  Products are compared by resolved commit, the
secondary products as an unordered set of commits, the config by name (§4.5).
The JSON decoder knows the request bodies listed in `bodies` and `runBodies`. -/
def memEnv (bodies : List (String × RunSet)) (runBodies : List (String × Run)) : Env MemStore where
  ensureMachineExists := fun s _ => (none, s)
  ensureProductExists := fun s p => ((p.Commit, none), s)
  ensureConfigExists := fun s _ => (none, s)
  runSetEnsureBenchmarksAndMetricsExist := fun s params =>
    (none, memEnsureBenchmarks s (benchmarkNames params.Runs))
  runEnsureBenchmarksAndMetricsExist := fun s run =>
    (none, memEnsureBenchmarks s (benchmarkNames [run]))
  insertPullRequest := fun s _ _ => (some s.nextID, { s with nextID := s.nextID + 1 })
  insertRunSet := fun s params _ _ _ =>
    (some s.nextID,
      { s with runSets := s.runSets ++ [(s.nextID, { params with Runs := [] })],
               nextID := s.nextID + 1 })
  insertRuns := fun s runSetID runs =>
    (((List.range runs.length).map (fun i => s.nextID + (i : Int)), none),
      { s with
        runSets := s.runSets.map
          (fun e => if e.1 = runSetID then (e.1, { e.2 with Runs := e.2.Runs ++ runs }) else e),
        nextID := s.nextID + (runs.length : Int) })
  fetchRunSet := fun s runSetID withRuns =>
    match s.runSets.lookup runSetID with
    | none => ((emptyRunSet, some (badRequestError "Could not find run set")), s)
    | some rs => ((if withRuns then rs else { rs with Runs := [] }, none), s)
  deleteRunSet := fun s runSetID =>
    match s.runSets.lookup runSetID with
    | none => ((0, 0, some (badRequestError "Could not find run set")), s)
    | some rs =>
      (((rs.Runs.length : Int), ((rs.Runs.map (fun run => run.Results.length)).sum : Int), none),
        { s with runSets := s.runSets.filter (fun e => e.1 ≠ runSetID) })
  updateRunSet := fun s runSetID rs =>
    (none,
      { s with
        runSets := s.runSets.map
          (fun e => if e.1 = runSetID then (e.1, { rs with Runs := e.2.Runs }) else e) })
  insertResults := fun s _ _ _ => (none, s)
  fetchRunSetSummaries := fun s machine config =>
    ((some ((s.runSets.filter
        (fun e => e.2.Machine.Name = machine ∧ e.2.Config.Name = config)).map
        (fun e => { ID := e.1, StartedAt := e.2.StartedAt })), none), s)
  fetchBenchmarks := fun s => (none, s)
  productIsSameAs := fun a b => a.Commit = b.Commit
  productSetsEqual := fun a b =>
    (a.all fun p => b.any fun q => p.Commit = q.Commit) &&
    (b.all fun q => a.any fun p => p.Commit = q.Commit)
  configIsSameAs := fun a b => a.Name = b.Name
  amendWithDataFrom := memAmend
  unmarshalRunSet := fun body => bodies.lookup body
  unmarshalRun := fun body => runBodies.lookup body
  marshalRequestError := fun e => some ("\x7b\"Explanation\":\"" ++ e.Explanation ++ "\"\x7d")
  marshalRunsetPostResponse := fun _ => some "\x7b\"RunSetID\":0\x7d"
  marshalRunSet := fun _ => some "\x7b\x7d"
  marshalStatus := fun _ => some "\x7b\x7d"
  marshalSummaries := fun _ => some "[]"

/-- A request with no query parameter and no header. -/
def bareRequest (method path : String) : Request :=
  { Method := method, URL := { Path := path, Query := fun _ => [] }, Header := fun _ => [],
    Body := some "" }

/-- A request carrying the query parameter `authToken=secret`. -/
def tokenRequest (method path body : String) : Request :=
  { Method := method,
    URL := { Path := path, Query := fun k => if k = "authToken" then ["secret"] else [] },
    Header := fun _ => [], Body := some body }

def emptyStore : MemStore := { benchmarks := [], runSets := [], nextID := 1 }

/-- A handler that asks for a commit while reporting an error. -/
def commitWithError : handlerFunc MemStore := fun database w _ _ =>
  some ⟨true, some (internalServerError "failed"), database, w⟩

/-- A stored run set: machine `bench1` of architecture `amd64`. -/
def storedRunSet : RunSet :=
  { emptyRunSet with
    MainProduct := ⟨"mono", "abc123"⟩, Machine := ⟨"bench1", "amd64"⟩,
    Config := ⟨"default", []⟩ }

/-- A store that holds `storedRunSet` under id 1 and no benchmark. -/
def storeWithRunSet : MemStore :=
  { benchmarks := [], runSets := [(1, storedRunSet)], nextID := 2 }

/-- An amendment that matches `storedRunSet` and brings one run with one
result of the benchmark `fib`. -/
def amendment : RunSet :=
  { storedRunSet with Runs := [⟨[⟨"fib", "time"⟩]⟩] }

/-- The same amendment sent for another machine. -/
def amendmentOtherMachine : RunSet :=
  { amendment with Machine := ⟨"bench2", "amd64"⟩ }

/-- The same amendment with the machine of the same name described with
another architecture. -/
def amendmentOtherArchitecture : RunSet :=
  { amendment with Machine := ⟨"bench1", "arm64"⟩ }

/-- The same amendment carrying a pull-request descriptor. -/
def amendmentWithPullRequest : RunSet :=
  { amendment with PullRequest := some ⟨1, "https://example.org/pull/1"⟩ }

/-- The environment of the examples: `memEnv` decoding four request bodies. -/
def exampleEnv : Env MemStore :=
  memEnv
    [("amend", amendment), ("other-machine", amendmentOtherMachine),
     ("other-architecture", amendmentOtherArchitecture),
     ("with-pull-request", amendmentWithPullRequest)] []

/-! ## Theorems: the transaction coordinator -/

/-- C1 (as amended): for a request that reaches its handler (method
registered, authorized, body read, transaction begun) and a handler that
returns `(commit, reqErr)`, the coordinator performs exactly one of Commit and
Rollback after the handler: Commit when `commit` is true, Rollback when it is
false, whatever `reqErr` is; `reqErr` is only reported to the client. -/
theorem newTransactionHandler_commit_follows_flag {σ : Type} (env : Env σ)
    (connPool : ConnPool σ) (authToken : String) (handlers : String → Option (handlerFunc σ))
    (w : ResponseWriter) (r : Request) (handler : handlerFunc σ) (body : String) (s : σ)
    (res : HandlerResult σ)
    (hmethod : handlers r.Method = some handler)
    (hauth : isAuthorized r authToken = true)
    (hbody : r.Body = some body)
    (hbegin : connPool.Begin = some s)
    (hres : handler { state := s, calls := [] } w r body = some res) :
    ∃ served, newTransactionHandler env connPool authToken handlers w r = some served ∧
      served.steps = [Step.Begin, Step.Handler, if res.commit then Step.Commit else Step.Rollback] ∧
      served.reqErr = res.reqErr := by
  unfold newTransactionHandler
  simp only [hmethod, hauth, hbody, hbegin, hres]
  cases hc : res.commit <;> cases he : res.reqErr <;> simp [finish]

/-- C1, at a concrete input: a PUT carrying the right token, served by the
run-set ingestion handler on an empty store, is committed. -/
theorem newTransactionHandler_commit_follows_flag_witness :
    ∃ served,
      newTransactionHandler (memEnv [("new", emptyRunSet)] []) ⟨some emptyStore⟩ "secret"
        (runSetRoute (memEnv [("new", emptyRunSet)] [])) []
        (tokenRequest "PUT" "/api/runset" "new") = some served ∧
      served.steps = [Step.Begin, Step.Handler, Step.Commit] ∧ served.reqErr = none := by
  obtain ⟨served, h1, h2, h3⟩ :=
    newTransactionHandler_commit_follows_flag (memEnv [("new", emptyRunSet)] [])
      ⟨some emptyStore⟩ "secret" (runSetRoute (memEnv [("new", emptyRunSet)] [])) []
      (tokenRequest "PUT" "/api/runset" "new")
      (runSetPutHandler (memEnv [("new", emptyRunSet)] [])) "new" emptyStore
      ⟨true, none,
        { state := { benchmarks := [], runSets := [(1, emptyRunSet)], nextID := 2 },
          calls := [StoreCall.ensureMachineExists, StoreCall.ensureProductExists,
            StoreCall.ensureBenchmarksAndMetricsExist, StoreCall.ensureConfigExists,
            StoreCall.insertRunSet, StoreCall.insertRuns 1] },
        writeJSON [] StatusCreated "\x7b\"RunSetID\":0\x7d"⟩
      rfl (by decide) rfl rfl rfl
  exact ⟨served, h1, h2, h3⟩

/-- C1 fails as stated: a handler that returns `(true, err)` with a non-nil
`err` has its transaction committed, not rolled back. -/
theorem newTransactionHandler_commits_despite_error :
    (commitWithError { state := emptyStore, calls := [] } [] (tokenRequest "PUT" "/api/runset" "")
        "").map (fun res => (res.commit, res.reqErr)) =
      some (true, some (internalServerError "failed")) ∧
    (newTransactionHandler (memEnv [] []) ⟨some emptyStore⟩ "secret"
        (fun _ => some commitWithError) []
        (tokenRequest "PUT" "/api/runset" "")).map (fun served => served.steps) =
      some [Step.Begin, Step.Handler, Step.Commit] := by
  constructor <;> decide

/-- C2: when the method has a registered handler and `isAuthorized` is false,
the only effect of the request is one `http.Error` with status 401 and the
encoding of "Auth token invalid": the coordinator takes no step (no Begin, no
handler call, no Commit, no Rollback) and there is no transaction. -/
theorem newTransactionHandler_unauthorized {σ : Type} (env : Env σ) (connPool : ConnPool σ)
    (authToken : String) (handlers : String → Option (handlerFunc σ))
    (w : ResponseWriter) (r : Request) (handler : handlerFunc σ)
    (hmethod : handlers r.Method = some handler)
    (hauth : isAuthorized r authToken = false) :
    ∃ served errorString,
      newTransactionHandler env connPool authToken handlers w r = some served ∧
      served.w = w ++ [WriterCall.Error errorString 401] ∧
      errorString = (match env.marshalRequestError ⟨"Auth token invalid", 401⟩ with
        | some bytes => bytes
        | none => "\x7b\"Explanation\": \"unknown\"\x7d") ∧
      served.reqErr = some ⟨"Auth token invalid", 401⟩ ∧
      served.steps = [] ∧ served.database = none := by
  unfold newTransactionHandler
  simp [hmethod, hauth, finish, httpError, StatusUnauthorized]

/-- C2, at a concrete input: a PUT without token against the secret "secret". -/
theorem newTransactionHandler_unauthorized_witness :
    ∃ served errorString,
      newTransactionHandler (memEnv [] []) ⟨some emptyStore⟩ "secret"
        (runSetRoute (memEnv [] [])) [] (bareRequest "PUT" "/api/runset") = some served ∧
      served.w = [] ++ [WriterCall.Error errorString 401] ∧
      errorString = (match (memEnv [] []).marshalRequestError ⟨"Auth token invalid", 401⟩ with
        | some bytes => bytes
        | none => "\x7b\"Explanation\": \"unknown\"\x7d") ∧
      served.reqErr = some ⟨"Auth token invalid", 401⟩ ∧
      served.steps = [] ∧ served.database = none :=
  newTransactionHandler_unauthorized (memEnv [] []) ⟨some emptyStore⟩ "secret"
    (runSetRoute (memEnv [] [])) [] (bareRequest "PUT" "/api/runset")
    (runSetPutHandler (memEnv [] [])) rfl (by decide)

/-! ## Theorems: authorization -/

/-- With a non-empty secret, a request that carries neither an `authToken`
query parameter nor an `Authorization` header is not authorized. -/
theorem isAuthorized_absent_of_nonempty (r : Request) (authToken : String)
    (hsecret : authToken ≠ "")
    (hquery : r.URL.Query "authToken" = [])
    (hheader : r.Header "Authorization" = []) :
    isAuthorized r authToken = false := by
  have h1 : ¬ ("" = authToken) := fun h => hsecret h.symm
  have h2 : ¬ ("" = "token " ++ authToken) := by
    intro h
    have hl := congrArg String.length h
    rw [String.length_append] at hl
    have : ("token ").length = 6 := by decide
    have : ("").length = 0 := by decide
    omega
  simp [isAuthorized, valuesGet, hquery, hheader, h1, h2]

/-- C3, the code at the failing input: with the empty string as the configured
secret, a request that carries no `authToken` query parameter and no
`Authorization` header is authorized, and the coordinator runs and commits the
ingestion handler for it. -/
theorem isAuthorized_empty_secret_accepts_absent_token :
    (bareRequest "PUT" "/api/runset").URL.Query "authToken" = [] ∧
    (bareRequest "PUT" "/api/runset").Header "Authorization" = [] ∧
    isAuthorized (bareRequest "PUT" "/api/runset") "" = true ∧
    (newTransactionHandler (memEnv [("", emptyRunSet)] []) ⟨some emptyStore⟩ ""
        (runSetRoute (memEnv [("", emptyRunSet)] [])) []
        (bareRequest "PUT" "/api/runset")).map (fun served => served.steps) =
      some [Step.Begin, Step.Handler, Step.Commit] := by
  refine ⟨rfl, rfl, by decide, by decide⟩

/-! ## Theorems: the health probe -/

/-- C9: for a GET request the health handler appends exactly a header with
status 200, the content type and the body `DatabaseResponds = true` when
`connPool.Begin()` succeeds and the benchmark read in that transaction returns
no error; in every other case it appends status 503, the content type and the
body `DatabaseResponds = false`. -/
theorem healthHandler_reports_reachability {σ : Type} (env : Env σ) (connPool : ConnPool σ)
    (w : ResponseWriter) (r : Request) (hget : r.Method = "GET") :
    ((∃ s, connPool.Begin = some s ∧ (env.fetchBenchmarks s).1 = none) →
      (healthHandler env connPool w r).w =
        w ++ [WriterCall.WriteHeader 200,
              WriterCall.HeaderSet "Content-Type" "application/json; charset=UTF-8",
              WriterCall.Write "\x7b\"DatabaseResponds\":true\x7d"]) ∧
    ((¬ ∃ s, connPool.Begin = some s ∧ (env.fetchBenchmarks s).1 = none) →
      (healthHandler env connPool w r).w =
        w ++ [WriterCall.WriteHeader 503,
              WriterCall.HeaderSet "Content-Type" "application/json; charset=UTF-8",
              WriterCall.Write "\x7b\"DatabaseResponds\":false\x7d"]) := by
  unfold healthHandler
  simp only [hget, ne_eq, not_true_eq_false, if_false]
  cases hb : connPool.Begin with
  | none => simp [marshalHealth, StatusServiceUnavailable]
  | some s =>
    cases hf : (env.fetchBenchmarks s).1 with
    | none => simp [marshalHealth, StatusOK, hf]
    | some e => simp [marshalHealth, StatusServiceUnavailable, hf]

/-- C9, at concrete inputs: a reachable store gives 200 and `true`, a pool
that cannot begin a transaction gives 503 and `false`. -/
theorem healthHandler_reports_reachability_witness :
    responseStatus (healthHandler (memEnv [] []) ⟨some emptyStore⟩ []
      (bareRequest "GET" "/api/health")).w = some 200 ∧
    responseBody (healthHandler (memEnv [] []) ⟨some emptyStore⟩ []
      (bareRequest "GET" "/api/health")).w = ["\x7b\"DatabaseResponds\":true\x7d"] ∧
    responseStatus (healthHandler (memEnv [] []) ⟨none⟩ []
      (bareRequest "GET" "/api/health")).w = some 503 ∧
    responseBody (healthHandler (memEnv [] []) ⟨none⟩ []
      (bareRequest "GET" "/api/health")).w = ["\x7b\"DatabaseResponds\":false\x7d"] := by
  have hup := (healthHandler_reports_reachability (memEnv [] []) ⟨some emptyStore⟩ []
    (bareRequest "GET" "/api/health") rfl).1 ⟨emptyStore, rfl, rfl⟩
  have hdown := (healthHandler_reports_reachability (memEnv [] []) ⟨none⟩ []
    (bareRequest "GET" "/api/health") rfl).2 (by simp)
  rw [hup, hdown]
  decide

/-! ## Theorems: `parseIDFromPath` -/

/-- C4, the code at the failing input: the id segment `0` is accepted and
returned with no error, although the error text of the guard `id64 < 0` reads
"Run set id must be a positive number". -/
theorem parseIDFromPath_accepts_zero :
    parseIDFromPath "/api/runset/0" 4 3 = some (0, none) ∧
    parseIDFromPath "/api/runset/-1" 4 3 =
      some (-1, some (badRequestError "Run set id must be a positive number")) := by
  constructor <;> decide

/-- The value of a digit string only grows from its starting accumulator. -/
theorem foldl_digits_ge (cs : List Char) (m : Nat) :
    m ≤ cs.foldl (fun acc c => 10 * acc + (c.toNat - '0'.toNat)) m := by
  induction cs generalizing m with
  | nil => simp
  | cons c cs ih =>
    simp only [List.foldl_cons]
    exact le_trans (by omega) (ih _)

/-- On decimal digits the loop of `ParseUint` computes the denoted number, or
reports a range error when that number exceeds `maxVal`. -/
theorem parseUintLoop_digits (cutoff maxVal : Nat) (hc : maxVal < cutoff)
    (hm : maxVal * 10 + 9 < 2 ^ 64) (ds : List Char) (n : Nat)
    (hd : ∀ c ∈ ds, isDecimalDigit c = true) (hn : n ≤ maxVal) :
    parseUintLoop 10 cutoff maxVal ds n =
      if ds.foldl (fun acc c => 10 * acc + (c.toNat - '0'.toNat)) n ≤ maxVal then
        (ds.foldl (fun acc c => 10 * acc + (c.toNat - '0'.toNat)) n, none)
      else (maxVal, some NumError.ErrRange) := by
  induction ds generalizing n with
  | nil => simp [parseUintLoop, hn]
  | cons c cs ih =>
    have hcd : isDecimalDigit c = true := hd c (List.mem_cons_self _ _)
    have h0 : ('0' : Char).toNat = 48 := by decide
    have h9 : ('9' : Char).toNat = 57 := by decide
    simp only [isDecimalDigit, h0, h9, decide_eq_true_eq] at hcd
    have hrest : ∀ c' ∈ cs, isDecimalDigit c' = true :=
      fun c' hc' => hd c' (List.mem_cons_of_mem _ hc')
    have hn10 : n * 10 % 2 ^ 64 = n * 10 := Nat.mod_eq_of_lt (by omega)
    have hn1 : (n * 10 + (c.toNat - 48)) % 2 ^ 64 = n * 10 + (c.toNat - 48) :=
      Nat.mod_eq_of_lt (by omega)
    have hstep : 10 * n + (c.toNat - 48) = n * 10 + (c.toNat - 48) := by omega
    simp only [parseUintLoop, List.foldl_cons, h0, hcd, and_self, if_true, hn10, hn1]
    have hd10 : ¬ (c.toNat - 48 ≥ 10) := by omega
    have hcut : ¬ (n ≥ cutoff) := by omega
    simp only [hd10, hcut, if_false, hstep]
    by_cases hbig : n * 10 + (c.toNat - 48) > maxVal
    · have hge := foldl_digits_ge cs (n * 10 + (c.toNat - 48))
      simp only [h0] at hge
      have : ¬ (List.foldl (fun acc c => 10 * acc + (c.toNat - 48)) (n * 10 + (c.toNat - 48)) cs
          ≤ maxVal) := by omega
      simp [hbig, this]
    · have hlt : ¬ (n * 10 + (c.toNat - 48) < n * 10) := by omega
      have := ih (n * 10 + (c.toNat - 48)) hrest (by omega)
      simp only [h0] at this
      simp only [hbig, hlt, or_self, if_false, this]

/-- Whatever the input, the loop of `ParseUint` ends with no error, with
`(0, ErrSyntax)` or with `(maxVal, ErrRange)`. -/
theorem parseUintLoop_shape (base cutoff maxVal : Nat) (ds : List Char) (n : Nat) :
    (parseUintLoop base cutoff maxVal ds n).2 = none ∨
    parseUintLoop base cutoff maxVal ds n = (0, some NumError.ErrSyntax) ∨
    parseUintLoop base cutoff maxVal ds n = (maxVal, some NumError.ErrRange) := by
  induction ds generalizing n with
  | nil => simp [parseUintLoop]
  | cons c cs ih =>
    unfold parseUintLoop
    simp only
    split
    · simp
    · split
      · simp
      · split
        · simp
        · split
          · simp
          · exact ih _

/-- A character that is not a decimal digit makes the base-10 loop fail. -/
theorem parseUintLoop_nondigit (cutoff maxVal : Nat) (ds : List Char) (n : Nat)
    (hd : ∃ c ∈ ds, isDecimalDigit c = false) :
    (parseUintLoop 10 cutoff maxVal ds n).2 ≠ none := by
  induction ds generalizing n with
  | nil => simp at hd
  | cons c cs ih =>
    have h0 : ('0' : Char).toNat = 48 := by decide
    have h9 : ('9' : Char).toNat = 57 := by decide
    unfold parseUintLoop
    simp only
    by_cases hcd : 48 ≤ c.toNat ∧ c.toNat ≤ 57
    · have hrest : ∃ c' ∈ cs, isDecimalDigit c' = false := by
        obtain ⟨c', hmem, hc'⟩ := hd
        rcases List.mem_cons.mp hmem with rfl | hmem
        · simp [isDecimalDigit, h0, h9, hcd] at hc'
        · exact ⟨c', hmem, hc'⟩
      simp only [hcd, and_self, if_true]
      split
      · simp
      · split
        · simp
        · split
          · simp
          · exact ih _ hrest
    · simp only [hcd, if_false]
      split
      · simp
      · rename_i d hdv
        split at hdv
        · have : d = lower c.toNat - 97 + 10 := by simpa using hdv.symm
          have hge : d ≥ 10 := by omega
          simp [hge]
        · simp at hdv

/-- The function `ParseUint` at base 10 and 32 bits against the denoted number:
the number itself when it fits in 32 bits, a range error when it does not, and
an error when the text is not a digit string. -/
theorem ParseUint_cases (s : List Char) :
    (∀ v, unsignedValue s = some v → v ≤ 4294967295 → ParseUint s 10 32 = (v, none)) ∧
    (∀ v, unsignedValue s = some v → ¬ v ≤ 4294967295 →
      ParseUint s 10 32 = (4294967295, some NumError.ErrRange)) ∧
    (unsignedValue s = none →
      ParseUint s 10 32 = (0, some NumError.ErrSyntax) ∨
      ParseUint s 10 32 = (4294967295, some NumError.ErrRange)) := by
  have hmax : (2 : Nat) ^ 32 - 1 = 4294967295 := by norm_num
  by_cases hs : s = []
  · subst hs
    simp [unsignedValue, ParseUint]
  · by_cases hall : s.all isDecimalDigit = true
    · have hd : ∀ c ∈ s, isDecimalDigit c = true := by
        simpa [List.all_eq_true] using hall
      have hloop := parseUintLoop_digits (maxUint64 / 10 + 1) 4294967295
        (by simp [maxUint64]) (by norm_num) s 0 hd (by omega)
      have hv : unsignedValue s = some (digitsValue s) := by
        simp [unsignedValue, hs, hall]
      have hP : ParseUint s 10 32 =
          if digitsValue s ≤ 4294967295 then (digitsValue s, none)
          else (4294967295, some NumError.ErrRange) := by
        simp only [ParseUint, hs, if_false, hmax]
        exact hloop
      refine ⟨?_, ?_, ?_⟩
      · intro v hv' hle
        rw [hv] at hv'
        cases hv'
        simp [hP, hle]
      · intro v hv' hle
        rw [hv] at hv'
        cases hv'
        simp [hP, hle]
      · intro hnone
        rw [hv] at hnone
        cases hnone
    · have hv : unsignedValue s = none := by
        simp [unsignedValue, hs, hall]
      have hex : ∃ c ∈ s, isDecimalDigit c = false := by
        simpa [List.all_eq_true] using hall
      have hne := parseUintLoop_nondigit (maxUint64 / 10 + 1) 4294967295 s 0 hex
      have hshape := parseUintLoop_shape 10 (maxUint64 / 10 + 1) 4294967295 s 0
      have hP : ParseUint s 10 32 = parseUintLoop 10 (maxUint64 / 10 + 1) 4294967295 s 0 := by
        simp only [ParseUint, hs, if_false, hmax]
      refine ⟨?_, ?_, ?_⟩
      · intro v hv'
        rw [hv] at hv'
        cases hv'
      · intro v hv'
        rw [hv] at hv'
        cases hv'
      · intro _
        rw [hP]
        rcases hshape with h | h | h
        · exact absurd h hne
        · exact Or.inl h
        · exact Or.inr h

/-- The sign handling of `ParseInt` once `ParseUint` has read the digits `un`. -/
theorem ParseInt_of_value (c0 : Char) (tl : List Char) (un : Nat)
    (h : ParseUint (if c0 = '+' then tl else if c0 = '-' then tl else c0 :: tl) 10 32 =
      (un, none)) :
    ParseInt (c0 :: tl) 10 32 =
      if c0 ≠ '-' ∧ un ≥ 2147483648 then ((2147483647 : Int), some NumError.ErrRange)
      else if c0 = '-' ∧ un > 2147483648 then ((-2147483648 : Int), some NumError.ErrRange)
      else if c0 = '-' then (-(un : Int), none)
      else ((un : Int), none) := by
  simp only [ParseInt, h]
  by_cases hneg : c0 = '-' <;> simp [hneg]

/-- A syntax error of `ParseUint` is the result of `ParseInt`. -/
theorem ParseInt_of_syntax_error (c0 : Char) (tl : List Char)
    (h : ParseUint (if c0 = '+' then tl else if c0 = '-' then tl else c0 :: tl) 10 32 =
      (0, some NumError.ErrSyntax)) :
    (ParseInt (c0 :: tl) 10 32).2 ≠ none := by
  simp [ParseInt, h]

/-- A range error of `ParseUint` stays a range error in `ParseInt`. -/
theorem ParseInt_of_range_error (c0 : Char) (tl : List Char)
    (h : ParseUint (if c0 = '+' then tl else if c0 = '-' then tl else c0 :: tl) 10 32 =
      (4294967295, some NumError.ErrRange)) :
    (ParseInt (c0 :: tl) 10 32).2 ≠ none := by
  simp only [ParseInt, h]
  by_cases hneg : c0 = '-' <;> simp [hneg]

/-- The function `ParseInt` at base 10 and 32 bits against the reading of a
base-10 numeral: it returns the denoted integer exactly when the text is a
numeral whose value a 32-bit signed word can hold, and an error otherwise. -/
theorem ParseInt_spec (s : List Char) :
    (∀ z, base10Value s = some z → representableInt32 z → ParseInt s 10 32 = (z, none)) ∧
    ((∀ z, base10Value s = some z → ¬ representableInt32 z) →
      (ParseInt s 10 32).2 ≠ none) := by
  cases s with
  | nil => simp [base10Value, ParseInt]
  | cons c0 tl =>
    obtain ⟨hfit, hbig, hbad⟩ :=
      ParseUint_cases (if c0 = '+' then tl else if c0 = '-' then tl else c0 :: tl)
    have key : ∀ (neg : Bool), (neg = true ↔ c0 = '-') →
        base10Value (c0 :: tl) =
          (unsignedValue (if c0 = '+' then tl else if c0 = '-' then tl else c0 :: tl)).map
            (fun (n : Nat) => if neg then -(n : Int) else (n : Int)) := by
      intro neg hneg
      by_cases h1 : c0 = '-'
      · have hp : ¬ c0 = '+' := by rw [h1]; decide
        have : neg = true := hneg.mpr h1
        simp [base10Value, h1, this]
      · have : neg = false := by
          cases neg
          · rfl
          · exact absurd (hneg.mp rfl) h1
        by_cases h2 : c0 = '+'
        · simp [base10Value, h1, h2, this]
        · simp [base10Value, h1, h2, this]
    have hkey := key (decide (c0 = '-')) (by simp)
    cases hu : unsignedValue (if c0 = '+' then tl else if c0 = '-' then tl else c0 :: tl) with
    | none =>
      rw [hu] at hkey
      constructor
      · intro z hz
        rw [hkey] at hz
        cases hz
      · intro _
        rcases hbad hu with h | h
        · exact ParseInt_of_syntax_error c0 tl h
        · exact ParseInt_of_range_error c0 tl h
    | some v =>
      rw [hu] at hkey
      replace hkey : base10Value (c0 :: tl) =
          some (if decide (c0 = '-') = true then -(v : Int) else (v : Int)) := hkey
      by_cases hv : v ≤ 4294967295
      · have hP := ParseInt_of_value c0 tl v (hfit v hu hv)
        constructor
        · intro z hz hrep
          rw [hkey] at hz
          cases hz
          unfold representableInt32 at hrep
          rw [hP]
          by_cases hneg : c0 = '-'
          · simp only [hneg, decide_True, if_true] at hrep ⊢
            have : ¬ (v > 2147483648) := by omega
            simp [this, hneg]
          · simp only [hneg, decide_False] at hrep ⊢
            have : ¬ (v ≥ 2147483648) := by
              simp only [Bool.false_eq_true, if_false] at hrep
              omega
            simp [this, hneg]
        · intro hno
          have hrep := hno _ hkey
          unfold representableInt32 at hrep
          rw [hP]
          by_cases hneg : c0 = '-'
          · simp only [hneg, decide_True, if_true] at hrep ⊢
            have : v > 2147483648 := by omega
            simp [this, hneg]
          · simp only [hneg, decide_False, Bool.false_eq_true, if_false] at hrep ⊢
            have : v ≥ 2147483648 := by omega
            simp [this, hneg]
      · constructor
        · intro z hz hrep
          rw [hkey] at hz
          cases hz
          unfold representableInt32 at hrep
          exfalso
          by_cases hneg : c0 = '-'
          · simp only [hneg, decide_True, if_true] at hrep
            omega
          · simp only [hneg, decide_False, Bool.false_eq_true, if_false] at hrep
            omega
        · intro _
          exact ParseInt_of_range_error c0 tl (hbig v hu hv)

/-- The conversion `int32(x)` keeps a value that a 32-bit signed word holds. -/
theorem toInt32_of_representable (z : Int) (h : representableInt32 z) : toInt32 z = z := by
  unfold representableInt32 at h
  unfold toInt32
  norm_num at h ⊢
  omega

/-- The function `parseIDFromPath` read against the pieces its own call of
`strings.Split` produces: errors, their status and id, and the value returned
without error. -/
theorem parseIDFromPath_cases (path : String) (numComponents index : Int)
    (h0 : 0 ≤ index) (h1 : index < numComponents) :
    ∃ id err, parseIDFromPath path numComponents index = some (id, err) ∧
      (err ≠ none ↔
        (((stringsSplit path '/').length : Int) ≠ numComponents ∨
          ∃ comp, (stringsSplit path '/')[index.toNat]? = some comp ∧
            ((¬ ∃ z, base10Value comp = some z ∧ representableInt32 z) ∨
              ∃ z, base10Value comp = some z ∧ z < 0))) ∧
      (∀ e, err = some e → e.httpStatus = 400 ∧ id = -1) ∧
      (err = none →
        ∃ comp, (stringsSplit path '/')[index.toNat]? = some comp ∧
          base10Value comp = some id) := by
  unfold parseIDFromPath
  by_cases hlen : ((stringsSplit path '/').length : Int) ≠ numComponents
  · refine ⟨-1, some (badRequestError "Incorrect path"), ?_, ?_, ?_, ?_⟩
    · simp [hlen]
    · simp [hlen]
    · intro e he
      cases he
      simp [badRequestError, StatusBadRequest]
    · intro h
      cases h
  · have hlen' : ((stringsSplit path '/').length : Int) = numComponents := not_not.mp hlen
    have hidx : index.toNat < (stringsSplit path '/').length := by omega
    have hneg : ¬ index < 0 := by omega
    obtain ⟨comp, hcomp⟩ : ∃ comp, (stringsSplit path '/')[index.toNat]? = some comp :=
      ⟨_, List.getElem?_eq_getElem hidx⟩
    obtain ⟨hok, hbad⟩ := ParseInt_spec comp
    simp only [hlen, hneg, hcomp, if_false]
    by_cases hnum : ∃ z, base10Value comp = some z ∧ representableInt32 z
    · obtain ⟨z, hz, hrep⟩ := hnum
      have hP := hok z hz hrep
      by_cases hzneg : z < 0
      · refine ⟨-1, some (badRequestError "Run set id must be a positive number"),
          ?_, ?_, ?_, ?_⟩
        · simp [hP, hzneg]
        · simp only [ne_eq, not_false_eq_true, reduceCtorEq, true_iff]
          exact Or.inr ⟨comp, rfl, Or.inr ⟨z, hz, hzneg⟩⟩
        · intro e he
          cases he
          simp [badRequestError, StatusBadRequest]
        · intro h
          cases h
      · refine ⟨z, none, ?_, ?_, ?_, ?_⟩
        · simp [hP, hzneg, toInt32_of_representable z hrep]
        · simp only [ne_eq, not_true_eq_false, false_iff, not_or, not_exists, not_and]
          refine ⟨not_false, ?_⟩
          intro comp' hcomp'
          cases hcomp'
          refine ⟨?_, ?_⟩
          · intro hno
            exact hno z hz hrep
          · intro z' hz'
            rw [hz] at hz'
            cases hz'
            exact hzneg
        · intro e he
          cases he
        · intro _
          exact ⟨comp, rfl, hz⟩
    · have hno : ∀ z, base10Value comp = some z → ¬ representableInt32 z :=
        fun z hz hrep => hnum ⟨z, hz, hrep⟩
      have herr := hbad hno
      refine ⟨-1, some (badRequestError "Could not parse run set id"), ?_, ?_, ?_, ?_⟩
      · cases hP : ParseInt comp 10 32 with
        | mk id64 err =>
          rw [hP] at herr
          simp [herr]
      · simp only [ne_eq, not_false_eq_true, reduceCtorEq, true_iff]
        exact Or.inr ⟨comp, rfl, Or.inl hnum⟩
      · intro e he
        cases he
        simp [badRequestError, StatusBadRequest]
      · intro h
        cases h

/-- A text without the separator is its own single piece. -/
theorem splitChars_of_not_mem (sep : Char) (piece : List Char) (h : sep ∉ piece) :
    splitChars sep piece = [piece] := by
  induction piece with
  | nil => simp [splitChars]
  | cons x xs ih =>
    have hx : ¬ x = sep := fun e => h (by simp [e])
    have hxs : sep ∉ xs := fun e => h (List.mem_cons_of_mem _ e)
    simp [splitChars, hx, ih hxs]

/-- Splitting cuts at the first separator after a piece that has none. -/
theorem splitChars_append_sep (sep : Char) (piece rest : List Char) (h : sep ∉ piece) :
    splitChars sep (piece ++ sep :: rest) = piece :: splitChars sep rest := by
  induction piece with
  | nil => simp [splitChars]
  | cons x xs ih =>
    have hx : ¬ x = sep := fun e => h (by simp [e])
    have hxs : sep ∉ xs := fun e => h (List.mem_cons_of_mem _ e)
    simp [splitChars, hx, ih hxs]

/-- Splitting a joined text gives back the pieces: `strings.Split` finds the
one decomposition of a text into separated components. -/
theorem splitChars_joinWith (sep : Char) (comps : List (List Char)) (hne : comps ≠ [])
    (hsep : ∀ piece ∈ comps, sep ∉ piece) :
    splitChars sep (joinWith sep comps) = comps := by
  induction comps with
  | nil => exact absurd rfl hne
  | cons piece rest ih =>
    have hp : sep ∉ piece := hsep piece (List.mem_cons_self _ _)
    cases rest with
    | nil => simpa [joinWith] using splitChars_of_not_mem sep piece hp
    | cons next rest =>
      have hrest : ∀ q ∈ next :: rest, sep ∉ q :=
        fun q hq => hsep q (List.mem_cons_of_mem _ hq)
      have := ih (by simp) hrest
      simp only [joinWith]
      rw [splitChars_append_sep sep piece _ hp, this]

/-- The pieces `strings.Split` returns are the separated components of the
text. -/
theorem splitChars_isSeparated (sep : Char) (s : List Char) :
    IsSeparated sep s (splitChars sep s) := by
  induction s with
  | nil =>
    refine ⟨by simp [splitChars], ?_, by simp [splitChars, joinWith]⟩
    intro piece hp
    simp [splitChars] at hp
    simp [hp]
  | cons c cs ih =>
    obtain ⟨hne, hsep, hjoin⟩ := ih
    cases hsplit : splitChars sep cs with
    | nil => exact absurd hsplit hne
    | cons piece rest =>
      rw [hsplit] at hsep hjoin
      by_cases hc : c = sep
      · subst hc
        refine ⟨by simp [splitChars], ?_, ?_⟩
        · intro q hq
          simp only [splitChars, if_true, hsplit, List.mem_cons] at hq
          rcases hq with rfl | hq
          · simp
          · exact hsep q (List.mem_cons.mpr hq)
        · simp only [splitChars, if_true, hsplit, joinWith, List.nil_append]
          rw [hjoin]
      · refine ⟨by simp [splitChars, hc, hsplit], ?_, ?_⟩
        · intro q hq
          simp only [splitChars, hc, if_false, hsplit, List.mem_cons] at hq
          rcases hq with rfl | hq
          · intro hmem
            rcases List.mem_cons.mp hmem with e | e
            · exact hc e.symm
            · exact hsep piece (List.mem_cons_self _ _) e
          · exact hsep q (List.mem_cons_of_mem _ hq)
        · simp only [splitChars, hc, if_false, hsplit]
          cases rest with
          | nil =>
            simp only [joinWith] at hjoin ⊢
            rw [hjoin]
          | cons next rest =>
            simp only [joinWith, List.cons_append] at hjoin ⊢
            rw [hjoin]

/-- C5: every path has exactly one list of `/`-separated components (at least
one piece, no piece contains `/`, the pieces joined by `/` are the path), and
for `0 ≤ index < numComponents` the call
`parseIDFromPath(path, numComponents, index)` never indexes out of bounds and
behaves as follows against those components: it returns an error exactly when
their number differs from `numComponents`, or the component at `index` is not
a base-10 signed integer representable in 32 bits, or that integer is
negative; every error has status 400 and comes with id -1; without error the
id is the integer the component at `index` denotes. -/
theorem parseIDFromPath_spec (path : String) (numComponents index : Int)
    (h0 : 0 ≤ index) (h1 : index < numComponents) :
    ∃ comps, IsSeparated '/' path.data comps ∧
      (∀ other, IsSeparated '/' path.data other → other = comps) ∧
      ∃ id err, parseIDFromPath path numComponents index = some (id, err) ∧
        (err ≠ none ↔
          ((comps.length : Int) ≠ numComponents ∨
            ∃ comp, comps[index.toNat]? = some comp ∧
              ((¬ ∃ z, base10Value comp = some z ∧ representableInt32 z) ∨
                ∃ z, base10Value comp = some z ∧ z < 0))) ∧
        (∀ e, err = some e → e.httpStatus = 400 ∧ id = -1) ∧
        (err = none →
          ∃ comp, comps[index.toNat]? = some comp ∧ base10Value comp = some id) := by
  refine ⟨stringsSplit path '/', splitChars_isSeparated '/' path.data, ?_,
    parseIDFromPath_cases path numComponents index h0 h1⟩
  intro other hother
  obtain ⟨hne, hsep, hjoin⟩ := hother
  have := splitChars_joinWith '/' other hne hsep
  rw [hjoin] at this
  exact this.symm

/-- C5, at a concrete input: the components of `/api/runset/17` are the empty
piece, `api`, `runset` and `17`, and with four components expected and the id
at index 3 the call returns `(17, nil)`. -/
theorem parseIDFromPath_spec_witness :
    IsSeparated '/' "/api/runset/17".data ["".data, "api".data, "runset".data, "17".data] ∧
    parseIDFromPath "/api/runset/17" 4 3 = some (17, none) := by
  have hcomps : IsSeparated '/' "/api/runset/17".data
      ["".data, "api".data, "runset".data, "17".data] := by decide
  refine ⟨hcomps, ?_⟩
  obtain ⟨comps, _, huniq, id, err, hcall, hiff, _, hvalue⟩ :=
    parseIDFromPath_spec "/api/runset/17" 4 3 (by decide) (by decide)
  have hc : comps = ["".data, "api".data, "runset".data, "17".data] := (huniq _ hcomps).symm
  subst hc
  have h17 : base10Value "17".data = some 17 := by decide
  have herr : err = none := by
    by_contra hne
    rcases hiff.mp hne with hlen | ⟨comp, hcomp, hbad⟩
    · exact hlen (by decide)
    · have hcomp17 : comp = "17".data := by
        have h3 : (["".data, "api".data, "runset".data, "17".data] : List (List Char))[
            (3 : Int).toNat]? = some "17".data := by decide
        rw [h3] at hcomp
        exact (Option.some.inj hcomp).symm
      subst hcomp17
      rcases hbad with hno | ⟨z, hz, hneg⟩
      · exact hno ⟨17, h17, by decide⟩
      · rw [h17] at hz
        cases hz
        exact absurd hneg (by decide)
  subst herr
  obtain ⟨comp, hcomp, hid⟩ := hvalue rfl
  have hcomp17 : comp = "17".data := by
    have h3 : (["".data, "api".data, "runset".data, "17".data] : List (List Char))[
        (3 : Int).toNat]? = some "17".data := by decide
    rw [h3] at hcomp
    exact (Option.some.inj hcomp).symm
  subst hcomp17
  rw [h17] at hid
  cases hid
  exact hcall

/-! ## Theorems: the handlers -/

/-- With four components expected and the id at index 3 the slice index of
`parseIDFromPath` is in range. -/
theorem parseIDFromPath_no_panic (path : String) : parseIDFromPath path 4 3 ≠ none := by
  unfold parseIDFromPath
  by_cases hlen : ((stringsSplit path '/').length : Int) ≠ 4
  · simp [hlen]
  · have hidx : (3 : Int).toNat < (stringsSplit path '/').length := by
      have : ((stringsSplit path '/').length : Int) = 4 := not_not.mp hlen
      have h3 : (3 : Int).toNat = 3 := rfl
      omega
    have hneg : ¬ (3 : Int) < 0 := by decide
    simp only [hlen, hneg, if_false, List.getElem?_eq_getElem hidx]
    repeat' split
    all_goals simp

/-- The handler `runSetPutHandler` returns, and asks for a commit only with a
nil error. -/
theorem runSetPutHandler_commit_nil {σ : Type} (env : Env σ) (database : Tx σ)
    (w : ResponseWriter) (r : Request) (body : String) :
    ∃ res, runSetPutHandler env database w r body = some res ∧
      (res.commit = true → res.reqErr = none) := by
  unfold runSetPutHandler
  simp only
  repeat' split
  all_goals exact ⟨_, rfl, by simp⟩

/-- The handler `specificRunSetGetHandler` returns, and never asks for a commit. -/
theorem specificRunSetGetHandler_commit_nil {σ : Type} (env : Env σ) (database : Tx σ)
    (w : ResponseWriter) (r : Request) (body : String) :
    ∃ res, specificRunSetGetHandler env database w r body = some res ∧
      (res.commit = true → res.reqErr = none) := by
  unfold specificRunSetGetHandler
  simp only
  repeat' split
  all_goals first
    | exact ⟨_, rfl, by simp⟩
    | exact absurd ‹parseIDFromPath r.URL.Path 4 3 = none› (parseIDFromPath_no_panic _)

/-- The handler `specificRunSetDeleteHandler` returns, and asks for a commit
only with a nil error. -/
theorem specificRunSetDeleteHandler_commit_nil {σ : Type} (env : Env σ) (database : Tx σ)
    (w : ResponseWriter) (r : Request) (body : String) :
    ∃ res, specificRunSetDeleteHandler env database w r body = some res ∧
      (res.commit = true → res.reqErr = none) := by
  unfold specificRunSetDeleteHandler
  simp only
  repeat' split
  all_goals first
    | exact ⟨_, rfl, by simp⟩
    | exact absurd ‹parseIDFromPath r.URL.Path 4 3 = none› (parseIDFromPath_no_panic _)

/-- The handler `specificRunSetPostHandler` returns, and asks for a commit
only with a nil error. -/
theorem specificRunSetPostHandler_commit_nil {σ : Type} (env : Env σ) (database : Tx σ)
    (w : ResponseWriter) (r : Request) (body : String) :
    ∃ res, specificRunSetPostHandler env database w r body = some res ∧
      (res.commit = true → res.reqErr = none) := by
  unfold specificRunSetPostHandler
  simp only
  repeat' split
  all_goals first
    | exact ⟨_, rfl, by simp⟩
    | exact absurd ‹parseIDFromPath r.URL.Path 4 3 = none› (parseIDFromPath_no_panic _)

/-- The handler `specificRunPostHandler` returns, and asks for a commit only
with a nil error. -/
theorem specificRunPostHandler_commit_nil {σ : Type} (env : Env σ) (database : Tx σ)
    (w : ResponseWriter) (r : Request) (body : String) :
    ∃ res, specificRunPostHandler env database w r body = some res ∧
      (res.commit = true → res.reqErr = none) := by
  unfold specificRunPostHandler
  simp only
  repeat' split
  all_goals first
    | exact ⟨_, rfl, by simp⟩
    | exact absurd ‹parseIDFromPath r.URL.Path 4 3 = none› (parseIDFromPath_no_panic _)

/-- The handler `runSetsGetHandler` returns, and never asks for a commit. -/
theorem runSetsGetHandler_commit_nil {σ : Type} (env : Env σ) (database : Tx σ)
    (w : ResponseWriter) (r : Request) (body : String) :
    ∃ res, runSetsGetHandler env database w r body = some res ∧
      (res.commit = true → res.reqErr = none) := by
  unfold runSetsGetHandler
  simp only
  repeat' split
  all_goals exact ⟨_, rfl, by simp⟩

/-- When no handler of the map asks for a commit together with an error, the
coordinator never commits a request whose final `reqErr` is non-nil. -/
theorem newTransactionHandler_error_not_committed {σ : Type} (env : Env σ)
    (connPool : ConnPool σ) (authToken : String) (handlers : String → Option (handlerFunc σ))
    (hP : ∀ m h, handlers m = some h → ∀ database w r body res,
      h database w r body = some res → res.commit = true → res.reqErr = none)
    (w : ResponseWriter) (r : Request) (served : Served σ)
    (hs : newTransactionHandler env connPool authToken handlers w r = some served)
    (herr : served.reqErr ≠ none) : Step.Commit ∉ served.steps := by
  unfold newTransactionHandler at hs
  cases hm : handlers r.Method with
  | none =>
    simp only [hm, Option.some.injEq] at hs
    subst hs
    simp [finish]
  | some handler =>
    simp only [hm] at hs
    split at hs
    · simp only [Option.some.injEq] at hs
      subst hs
      simp [finish]
    · split at hs
      · simp only [Option.some.injEq] at hs
        subst hs
        simp [finish]
      · split at hs
        · simp only [Option.some.injEq] at hs
          subst hs
          simp [finish]
        · split at hs
          · cases hs
          · rename_i res hres
            split at hs
            · rename_i hc
              have hnil := hP _ _ hm _ _ _ _ _ hres hc
              simp only [Option.some.injEq] at hs
              subst hs
              simp [finish, hnil] at herr
            · simp only [Option.some.injEq] at hs
              subst hs
              cases he : res.reqErr <;> simp [finish, he]

/-- C10: each of the six registered handlers returns for every store
behaviour, transaction, writer, request and body, and returns `commit = true`
only together with a nil error; hence on each of the four routes registered by
`main` the coordinator never commits a request that ends with a non-nil
`reqErr`. -/
theorem registered_handlers_commit_only_without_error {σ : Type} (env : Env σ)
    (database : Tx σ) (w : ResponseWriter) (r : Request) (body : String)
    (connPool : ConnPool σ) (authToken : String) :
    (∃ res, runSetPutHandler env database w r body = some res ∧
      (res.commit = true → res.reqErr = none)) ∧
    (∃ res, specificRunSetGetHandler env database w r body = some res ∧
      (res.commit = true → res.reqErr = none)) ∧
    (∃ res, specificRunSetDeleteHandler env database w r body = some res ∧
      (res.commit = true → res.reqErr = none)) ∧
    (∃ res, specificRunSetPostHandler env database w r body = some res ∧
      (res.commit = true → res.reqErr = none)) ∧
    (∃ res, specificRunPostHandler env database w r body = some res ∧
      (res.commit = true → res.reqErr = none)) ∧
    (∃ res, runSetsGetHandler env database w r body = some res ∧
      (res.commit = true → res.reqErr = none)) ∧
    (∀ route ∈ [runSetRoute env, specificRunSetRoute env, specificRunRoute env,
        runSetsRoute env],
      ∀ served, newTransactionHandler env connPool authToken route w r = some served →
        served.reqErr ≠ none → Step.Commit ∉ served.steps) := by
  refine ⟨runSetPutHandler_commit_nil env database w r body,
    specificRunSetGetHandler_commit_nil env database w r body,
    specificRunSetDeleteHandler_commit_nil env database w r body,
    specificRunSetPostHandler_commit_nil env database w r body,
    specificRunPostHandler_commit_nil env database w r body,
    runSetsGetHandler_commit_nil env database w r body, ?_⟩
  have hput : ∀ database w r body res, runSetPutHandler env database w r body = some res →
      res.commit = true → res.reqErr = none := by
    intro database w r body res h
    obtain ⟨res', h', hp⟩ := runSetPutHandler_commit_nil env database w r body
    rw [h] at h'
    cases h'
    exact hp
  have hget : ∀ database w r body res,
      specificRunSetGetHandler env database w r body = some res →
      res.commit = true → res.reqErr = none := by
    intro database w r body res h
    obtain ⟨res', h', hp⟩ := specificRunSetGetHandler_commit_nil env database w r body
    rw [h] at h'
    cases h'
    exact hp
  have hdel : ∀ database w r body res,
      specificRunSetDeleteHandler env database w r body = some res →
      res.commit = true → res.reqErr = none := by
    intro database w r body res h
    obtain ⟨res', h', hp⟩ := specificRunSetDeleteHandler_commit_nil env database w r body
    rw [h] at h'
    cases h'
    exact hp
  have hpost : ∀ database w r body res,
      specificRunSetPostHandler env database w r body = some res →
      res.commit = true → res.reqErr = none := by
    intro database w r body res h
    obtain ⟨res', h', hp⟩ := specificRunSetPostHandler_commit_nil env database w r body
    rw [h] at h'
    cases h'
    exact hp
  have hrun : ∀ database w r body res,
      specificRunPostHandler env database w r body = some res →
      res.commit = true → res.reqErr = none := by
    intro database w r body res h
    obtain ⟨res', h', hp⟩ := specificRunPostHandler_commit_nil env database w r body
    rw [h] at h'
    cases h'
    exact hp
  have hsets : ∀ database w r body res, runSetsGetHandler env database w r body = some res →
      res.commit = true → res.reqErr = none := by
    intro database w r body res h
    obtain ⟨res', h', hp⟩ := runSetsGetHandler_commit_nil env database w r body
    rw [h] at h'
    cases h'
    exact hp
  intro route hroute served hs herr
  refine newTransactionHandler_error_not_committed env connPool authToken route ?_ w r served
    hs herr
  intro m h hm
  simp only [List.mem_cons, List.mem_singleton, List.not_mem_nil, or_false] at hroute
  rcases hroute with rfl | rfl | rfl | rfl
  · unfold runSetRoute at hm
    split at hm
    · cases hm
      exact hput
    · cases hm
  · unfold specificRunSetRoute at hm
    split at hm
    · cases hm
      exact hget
    · split at hm
      · cases hm
        exact hpost
      · split at hm
        · cases hm
          exact hdel
        · cases hm
  · unfold specificRunRoute at hm
    split at hm
    · cases hm
      exact hrun
    · cases hm
  · unfold runSetsRoute at hm
    split at hm
    · cases hm
      exact hsets
    · cases hm

/-! ## Theorems: the amendment handler -/

/-- C6: when the id parses and the body decodes to a run set with a non-nil
`PullRequest`, `specificRunSetPostHandler` returns `(false, 400 "PullRequest is
not allowed for amending")` and hands back the transaction and the writer as
it received them: no store operation was issued. -/
theorem specificRunSetPostHandler_rejects_pull_request {σ : Type} (env : Env σ)
    (database : Tx σ) (w : ResponseWriter) (r : Request) (body : String)
    (runSetID : Int) (params : RunSet) (pr : PullRequest)
    (hid : parseIDFromPath r.URL.Path 4 3 = some (runSetID, none))
    (hparse : env.unmarshalRunSet body = some params)
    (hpr : params.PullRequest = some pr) :
    ∃ res, specificRunSetPostHandler env database w r body = some res ∧
      res.commit = false ∧
      res.reqErr = some ⟨"PullRequest is not allowed for amending", 400⟩ ∧
      res.database.calls = database.calls ∧ res.database.state = database.state ∧
      res.w = w := by
  unfold specificRunSetPostHandler
  simp [hid, hparse, hpr, badRequestError, StatusBadRequest]

/-- C6, at a concrete input: an amendment of run set 1 that carries a
pull-request descriptor. -/
theorem specificRunSetPostHandler_rejects_pull_request_witness :
    ∃ res, specificRunSetPostHandler exampleEnv { state := storeWithRunSet, calls := [] } []
        (tokenRequest "POST" "/api/runset/1" "with-pull-request") "with-pull-request" =
        some res ∧
      res.commit = false ∧
      res.reqErr = some ⟨"PullRequest is not allowed for amending", 400⟩ ∧
      res.database.calls = [] ∧ res.database.state = storeWithRunSet ∧ res.w = [] :=
  specificRunSetPostHandler_rejects_pull_request exampleEnv
    { state := storeWithRunSet, calls := [] } []
    (tokenRequest "POST" "/api/runset/1" "with-pull-request") "with-pull-request"
    1 amendmentWithPullRequest ⟨1, "https://example.org/pull/1"⟩ (by decide) rfl rfl

/-- C7 (as amended): when the amendment passes the earlier steps (id parsed,
body decoded, no pull request, benchmarks and metrics ensured, run set
fetched) and its main product, secondary products, machine or config differ
from the stored run set, `specificRunSetPostHandler` returns `(false, 400
"Parameters do not match database")`; the operations issued on the transaction
before the rejection are exactly `ensureBenchmarksAndMetricsExist` and the
fetch without runs, so no run or result was inserted and no run set updated,
and the store is as the fetch left it. -/
theorem specificRunSetPostHandler_mismatch {σ : Type} (env : Env σ)
    (database : Tx σ) (w : ResponseWriter) (r : Request) (body : String)
    (runSetID : Int) (params rs : RunSet) (s1 s2 : σ)
    (hid : parseIDFromPath r.URL.Path 4 3 = some (runSetID, none))
    (hparse : env.unmarshalRunSet body = some params)
    (hpr : params.PullRequest = none)
    (hensure : env.runSetEnsureBenchmarksAndMetricsExist database.state params = (none, s1))
    (hfetch : env.fetchRunSet s1 runSetID false = ((rs, none), s2))
    (hmismatch : env.productIsSameAs params.MainProduct rs.MainProduct = false ∨
      env.productSetsEqual params.SecondaryProducts rs.SecondaryProducts = false ∨
      params.Machine ≠ rs.Machine ∨
      env.configIsSameAs params.Config rs.Config = false) :
    ∃ res, specificRunSetPostHandler env database w r body = some res ∧
      res.commit = false ∧
      res.reqErr = some ⟨"Parameters do not match database", 400⟩ ∧
      res.database.calls = database.calls ++
        [StoreCall.ensureBenchmarksAndMetricsExist, StoreCall.fetchRunSet runSetID false] ∧
      res.database.state = s2 ∧ res.w = w := by
  unfold specificRunSetPostHandler
  rcases hmismatch with h | h | h | h <;>
    simp [hid, hparse, hpr, hensure, hfetch, Tx.issue, h, badRequestError, StatusBadRequest]

/-- C7, at a concrete input: run set 1 is stored for machine `bench1`, the
amendment names machine `bench2`. -/
theorem specificRunSetPostHandler_mismatch_witness :
    ∃ res, specificRunSetPostHandler exampleEnv { state := storeWithRunSet, calls := [] } []
        (tokenRequest "POST" "/api/runset/1" "other-machine") "other-machine" = some res ∧
      res.commit = false ∧
      res.reqErr = some ⟨"Parameters do not match database", 400⟩ ∧
      res.database.calls = [] ++
        [StoreCall.ensureBenchmarksAndMetricsExist, StoreCall.fetchRunSet 1 false] ∧
      res.database.state = { storeWithRunSet with benchmarks := ["fib"] } ∧ res.w = [] :=
  specificRunSetPostHandler_mismatch exampleEnv { state := storeWithRunSet, calls := [] } []
    (tokenRequest "POST" "/api/runset/1" "other-machine") "other-machine"
    1 amendmentOtherMachine storedRunSet
    { storeWithRunSet with benchmarks := ["fib"] } { storeWithRunSet with benchmarks := ["fib"] }
    (by decide) rfl rfl rfl rfl (Or.inr (Or.inr (Or.inl (by decide))))

/-- C7 fails as stated: the amendment for another machine is rejected with
"Parameters do not match database" after `ensureBenchmarksAndMetricsExist` was
issued on the transaction, and that operation has created the benchmark `fib`
in a benchmark table that was empty. -/
theorem specificRunSetPostHandler_mismatch_after_benchmark_creation :
    storeWithRunSet.benchmarks = [] ∧
    (specificRunSetPostHandler exampleEnv { state := storeWithRunSet, calls := [] } []
        (tokenRequest "POST" "/api/runset/1" "other-machine") "other-machine").map
      (fun res => (res.commit, res.reqErr, res.database.calls, res.database.state.benchmarks)) =
    some (false, some (badRequestError "Parameters do not match database"),
      [StoreCall.ensureBenchmarksAndMetricsExist, StoreCall.fetchRunSet 1 false], ["fib"]) := by
  constructor <;> decide

/-- C8 (as amended): the machine is compared on all its fields.  When the
amendment passes the earlier steps, its machine equals the stored machine in
every field and the main product, secondary products and config match, the
identity check passes: the handler goes on to insert the runs. -/
theorem specificRunSetPostHandler_same_machine_passes {σ : Type} (env : Env σ)
    (database : Tx σ) (w : ResponseWriter) (r : Request) (body : String)
    (runSetID : Int) (params rs : RunSet) (s1 s2 : σ)
    (hid : parseIDFromPath r.URL.Path 4 3 = some (runSetID, none))
    (hparse : env.unmarshalRunSet body = some params)
    (hpr : params.PullRequest = none)
    (hensure : env.runSetEnsureBenchmarksAndMetricsExist database.state params = (none, s1))
    (hfetch : env.fetchRunSet s1 runSetID false = ((rs, none), s2))
    (hmain : env.productIsSameAs params.MainProduct rs.MainProduct = true)
    (hsecondary : env.productSetsEqual params.SecondaryProducts rs.SecondaryProducts = true)
    (hmachine : params.Machine = rs.Machine)
    (hconfig : env.configIsSameAs params.Config rs.Config = true) :
    ∃ res tail, specificRunSetPostHandler env database w r body = some res ∧
      res.database.calls = database.calls ++
        [StoreCall.ensureBenchmarksAndMetricsExist, StoreCall.fetchRunSet runSetID false,
          StoreCall.insertRuns runSetID] ++ tail := by
  unfold specificRunSetPostHandler
  simp only [hid, hparse, hpr, hensure, Tx.issue, hfetch, hmain, hsecondary, hmachine, hconfig,
    ne_eq, not_true_eq_false, if_false, Bool.not_true, Bool.or_self, decide_False,
    Bool.false_eq_true]
  repeat' split
  all_goals first
    | (refine ⟨_, [], rfl, ?_⟩
       simp
       done)
    | (refine ⟨_, [StoreCall.updateRunSet runSetID], rfl, ?_⟩
       simp)

/-- C8, at a concrete input: the amendment names the stored machine with the
stored architecture and is applied. -/
theorem specificRunSetPostHandler_same_machine_passes_witness :
    ∃ res tail, specificRunSetPostHandler exampleEnv { state := storeWithRunSet, calls := [] } []
        (tokenRequest "POST" "/api/runset/1" "amend") "amend" = some res ∧
      res.database.calls = [] ++
        [StoreCall.ensureBenchmarksAndMetricsExist, StoreCall.fetchRunSet 1 false,
          StoreCall.insertRuns 1] ++ tail :=
  specificRunSetPostHandler_same_machine_passes exampleEnv
    { state := storeWithRunSet, calls := [] } []
    (tokenRequest "POST" "/api/runset/1" "amend") "amend"
    1 amendment storedRunSet
    { storeWithRunSet with benchmarks := ["fib"] } { storeWithRunSet with benchmarks := ["fib"] }
    (by decide) rfl rfl rfl rfl (by decide) (by decide) (by decide) (by decide)

/-- C8 fails as stated: the amendment names the stored machine `bench1` and
matches the stored main product, secondary products and config, but describes
the machine with another architecture, and is rejected with "Parameters do not
match database". -/
theorem specificRunSetPostHandler_same_name_rejected :
    amendmentOtherArchitecture.Machine.Name = storedRunSet.Machine.Name ∧
    exampleEnv.productIsSameAs amendmentOtherArchitecture.MainProduct
      storedRunSet.MainProduct = true ∧
    exampleEnv.productSetsEqual amendmentOtherArchitecture.SecondaryProducts
      storedRunSet.SecondaryProducts = true ∧
    exampleEnv.configIsSameAs amendmentOtherArchitecture.Config storedRunSet.Config = true ∧
    (specificRunSetPostHandler exampleEnv { state := storeWithRunSet, calls := [] } []
        (tokenRequest "POST" "/api/runset/1" "other-architecture") "other-architecture").map
      (fun res => (res.commit, res.reqErr, res.database.calls)) =
    some (false, some (badRequestError "Parameters do not match database"),
      [StoreCall.ensureBenchmarksAndMetricsExist, StoreCall.fetchRunSet 1 false]) := by
  refine ⟨by decide, by decide, by decide, by decide, by decide⟩

end Benchmarker
